import Mathlib

/-!
Verification of `scripts/build_cities_by_country.py` from the
world-location-dataset repository.

The script is a single-pass batch pipeline: it reads a CSV of world cities,
builds per-country city lists and a per-country metadata dictionary, and
writes per-country city files plus two consolidated country files.

The embedding below mirrors the Python source line by line:
* rows from `csv.DictReader` become `RawRow` (string-keyed optional fields;
  `none` models a missing key or a `None` value);
* `float(...)` on the decimal strings occurring in the data is modelled
  exactly by `pyParseFloat`, returning `none` for a `ValueError`; the value
  of a parsed decimal literal is kept exactly as a canonical scaled integer
  (`PyFloat`), which is faithful for equality of decimal values (exponent,
  underscore and inf/nan forms of Python float syntax are not modelled, as
  no claim depends on them);
* the loop body of `build_from_csv` becomes `processRow`; an uncaught
  exception is an `Option.none` result, aborting the run;
* `dict` / `defaultdict(list)` with their insertion order become
  association lists;
* Python's `sorted` with a key function is a stable sort on that key,
  embedded as `List.insertionSort` on the same key (insertion sort with a
  non-strict comparison is stable).
-/

/-- The whitespace characters removed by Python `str.strip()` (ASCII range). -/
def isPySpace (c : Char) : Bool :=
  c = ' ' || c = '\t' || c = '\n' || c = '\r' || c = '\x0b' || c = '\x0c'

/-- Python `str.strip()`: drop leading and trailing whitespace. -/
def pyStrip (s : String) : String :=
  ⟨((s.data.dropWhile isPySpace).reverse.dropWhile isPySpace).reverse⟩

/-- Python `str.lower()` (ASCII range, which covers the fields involved). -/
def pyLower (s : String) : String := ⟨s.data.map Char.toLower⟩

/-- Python `str.upper()` (ASCII range, which covers the fields involved). -/
def pyUpper (s : String) : String := ⟨s.data.map Char.toUpper⟩

/-- Python `row.get(k) or ""`: a missing key, a `None` value and the empty
string are all replaced by `""`. -/
def orEmpty : Option String → String
  | none => ""
  | some s => s

/-- The exact value of a parsed Python float literal, `num / 10 ^ exp`.
Canonical form: if `exp > 0` then `num` is not divisible by 10, so
structural equality coincides with equality of the denoted decimal values. -/
structure PyFloat where
  num : Int
  exp : Nat
deriving DecidableEq, Repr

/-- The float value `0.0` (also the value of `float(0)` on line 68/69). -/
def PyFloat.zero : PyFloat := ⟨0, 0⟩

/-- Numeric value of a list of decimal digit characters. -/
def digitsVal (l : List Char) : Nat :=
  l.foldl (fun n c => 10 * n + (c.toNat - 48)) 0

/-- Split a character list at every dot, like `str.split` on a period. -/
def splitDot : List Char → List (List Char)
  | [] => [[]]
  | c :: t =>
    match splitDot t with
    | [] => [[]]
    | h :: r => if c = '.' then [] :: h :: r else (c :: h) :: r

/-- Remove trailing zero digits of a fractional part (canonicalisation only;
it does not change the denoted value). -/
def stripTrailingZeros (l : List Char) : List Char :=
  (l.reverse.dropWhile (· = '0')).reverse

/-- Build the canonical `PyFloat` denoted by sign, integer part and
fractional part. -/
def mkPyFloat (neg : Bool) (ip fp : List Char) : PyFloat :=
  let fp2 := stripTrailingZeros fp
  let m : Nat := digitsVal ip * 10 ^ fp2.length + digitsVal fp2
  ⟨if neg then -(m : Int) else (m : Int), fp2.length⟩

/-- Python `float(s)` on the plain decimal literals occurring in the data:
optional surrounding whitespace, optional sign, digits with at most one
dot, at least one digit overall.  `none` models a `ValueError`. -/
def pyParseFloat (s : String) : Option PyFloat :=
  let t := (pyStrip s).data
  let signed : Bool × List Char :=
    match t with
    | '-' :: r => (true, r)
    | '+' :: r => (false, r)
    | _ => (false, t)
  match splitDot signed.2 with
  | [ip] =>
    if !ip.isEmpty && ip.all Char.isDigit then some (mkPyFloat signed.1 ip []) else none
  | [ip, fp] =>
    if (!ip.isEmpty || !fp.isEmpty) && ip.all Char.isDigit && fp.all Char.isDigit then
      some (mkPyFloat signed.1 ip fp)
    else none
  | _ => none

/-- Python `int(x)` on a float value: truncation toward zero. -/
def PyFloat.toIntTrunc (x : PyFloat) : Int := x.num.tdiv ((10 : Int) ^ x.exp)

/-- Lines 21-27, `parse_population`: `None`/`""` give `None`; otherwise
`int(float(value))`, with a `ValueError` caught and turned into `None`. -/
def parse_population (value : Option String) : Option Int :=
  match value with
  | none => none
  | some s =>
    if s = "" then none
    else
      match pyParseFloat s with
      | some q => some q.toIntTrunc
      | none => none

/-- Lines 30-36, `is_capital`: falsy values give `False`; otherwise the
value is stripped, lower-cased and compared with `"primary"` and
`"admin"`. -/
def is_capital (capital_value : Option String) : Bool :=
  match capital_value with
  | none => false
  | some s =>
    if s = "" then false
    else
      let cv := pyLower (pyStrip s)
      cv == "primary" || cv == "admin"

/-- One row produced by `csv.DictReader`: field name to string value.
`none` models a missing key or a `None` value. -/
structure RawRow where
  iso2 : Option String := none
  iso3 : Option String := none
  country : Option String := none
  city : Option String := none
  admin_name : Option String := none
  capital : Option String := none
  lat : Option String := none
  lng : Option String := none
  population : Option String := none
deriving DecidableEq, Repr

/-- Line 68/69, `float(row.get(k) or 0)`: a missing or empty field gives
`0.0`; any other string goes through Python float parsing, where failure
(`none`) is an uncaught `ValueError`. -/
def floatField : Option String → Option PyFloat
  | none => some PyFloat.zero
  | some s => if s = "" then some PyFloat.zero else pyParseFloat s

/-- A City Record (the `city_obj` dict of lines 63-71). -/
structure CityObj where
  name : String
  country_iso2 : String
  state : String
  is_capital : Bool
  latitude : PyFloat
  longitude : PyFloat
  population : Option Int
deriving DecidableEq, Repr

/-- A Country Metadata Record (the dict created on lines 76-85).
`none` coordinates model Python `None`. -/
structure CountryMeta where
  iso2 : String
  iso3 : String
  name : String
  capital : String
  region : String
  subregion : String
  latitude : Option PyFloat
  longitude : Option PyFloat
deriving DecidableEq, Repr

/-- First value stored under a key in an association list (Python `d[k]` /
`d.get(k)` up to presence). -/
def alistGet {α : Type} : List (String × α) → String → Option α
  | [], _ => none
  | (k, v) :: t, c => if k = c then some v else alistGet t c

/-- Update in place the value stored under a key (Python `d[k] = f(d[k])`
for a present key). -/
def alistModify {α : Type} : List (String × α) → String → (α → α) → List (String × α)
  | [], _, _ => []
  | (k, v) :: t, c, f => if k = c then (k, f v) :: t else (k, v) :: alistModify t c f

/-- `defaultdict(list)`: `by_country_cities[k].append(x)` (line 72).  A new
key goes to the end, matching dict insertion order. -/
def dictAppend (l : List (String × List CityObj)) (k : String) (x : CityObj) :
    List (String × List CityObj) :=
  if (alistGet l k).isSome then alistModify l k (fun g => g ++ [x]) else l ++ [(k, [x])]

/-- The city list stored for a code (`[]` when the key is absent, matching
`defaultdict(list)` reads). -/
def groupOf (l : List (String × List CityObj)) (c : String) : List CityObj :=
  (alistGet l c).getD []

/-- Lines 75-85: create the metadata entry only if the key is absent; a new
key goes to the end, matching dict insertion order. -/
def insertIfAbsent (l : List (String × CountryMeta)) (k : String) (v : CountryMeta) :
    List (String × CountryMeta) :=
  if (alistGet l k).isSome then l else l ++ [(k, v)]

/-- Line 55: `(row.get("iso2") or "").upper()`. -/
def rowIso2 (r : RawRow) : String := pyUpper (orEmpty r.iso2)

/-- Line 60: `(row.get("iso3") or "").upper() if "iso3" in row else ""`.
Both branches give `""` when the field is missing, so one definition
covers them. -/
def rowIso3 (r : RawRow) : String := pyUpper (orEmpty r.iso3)

/-- Line 88: `(row.get("capital") or "").strip().lower()`. -/
def rowCapitalNorm (r : RawRow) : String := pyLower (pyStrip (orEmpty r.capital))

/-- Lines 63-71: the `city_obj` construction.  `none` is the uncaught
`ValueError` raised by `float` on a present but unparsable coordinate. -/
def rowCity (r : RawRow) : Option CityObj :=
  match floatField r.lat, floatField r.lng with
  | some la, some lo =>
    some { name := orEmpty r.city, country_iso2 := rowIso2 r, state := orEmpty r.admin_name,
           is_capital := is_capital r.capital, latitude := la, longitude := lo,
           population := parse_population r.population }
  | _, _ => none

/-- Lines 76-85: the metadata record created on first encounter of a
country code. -/
def metaInit (r : RawRow) : CountryMeta :=
  { iso2 := rowIso2 r, iso3 := rowIso3 r, name := orEmpty r.country, capital := "",
    region := "", subregion := "", latitude := none, longitude := none }

/-- Lines 89-95: the primary-capital update.  The capital name is assigned
before the `try` block; inside it both coordinates are assigned, and a
`ValueError` resets both to `None`. -/
def primaryUpdate (r : RawRow) (m : CountryMeta) : CountryMeta :=
  let m1 := { m with capital := orEmpty r.city }
  match floatField r.lat, floatField r.lng with
  | some la, some lo => { m1 with latitude := some la, longitude := some lo }
  | _, _ => { m1 with latitude := none, longitude := none }

/-- The in-memory aggregation structure built by the row loop. -/
structure BuildState where
  cities : List (String × List CityObj)
  meta : List (String × CountryMeta)
deriving DecidableEq, Repr

def initState : BuildState := ⟨[], []⟩

/-- Lines 54-95: one iteration of the row loop.  `none` models an uncaught
exception aborting the whole run. -/
def processRow (st : BuildState) (r : RawRow) : Option BuildState :=
  if rowIso2 r = "" then some st
  else
    match rowCity r with
    | none => none
    | some city =>
      let cities1 := dictAppend st.cities (rowIso2 r) city
      let meta1 := insertIfAbsent st.meta (rowIso2 r) (metaInit r)
      let meta2 :=
        if rowCapitalNorm r = "primary" then alistModify meta1 (rowIso2 r) (primaryUpdate r)
        else meta1
      some ⟨cities1, meta2⟩

/-- The row loop over a list of rows. -/
def runRows (st : BuildState) : List RawRow → Option BuildState
  | [] => some st
  | r :: t =>
    match processRow st r with
    | some st1 => runRows st1 t
    | none => none

/-- Non-strict lexicographic comparison of character lists by code point;
this is the order Python string comparison uses. -/
def charListLe : List Char → List Char → Bool
  | [], _ => true
  | _ :: _, [] => false
  | a :: as, b :: bs =>
    if a.toNat = b.toNat then charListLe as bs else decide (a.toNat < b.toNat)

/-- Non-strict Python string order. -/
def strLe (a b : String) : Bool := charListLe a.data b.data

/-- The key order of `sorted(cities, key=lambda c: c["name"])`. -/
def cityNameLe (a b : CityObj) : Prop := strLe a.name b.name = true

/-- The key order of `sorted(countries_meta.values(), key=lambda c: c["name"])`. -/
def metaNameLe (a b : CountryMeta) : Prop := strLe a.name b.name = true

instance : DecidableRel cityNameLe := fun a b => decEq (strLe a.name b.name) true

instance : DecidableRel metaNameLe := fun a b => decEq (strLe a.name b.name) true

/-- Line 106: `sorted(cities, key=lambda c: c["name"])`.  Python `sorted`
is a stable sort on the key, embedded as insertion sort on the same key. -/
def sortCities (l : List CityObj) : List CityObj := List.insertionSort cityNameLe l

/-- Line 114: `sorted(countries_meta.values(), key=lambda c: c["name"])`. -/
def sortedCountries (st : BuildState) : List CountryMeta :=
  List.insertionSort metaNameLe (st.meta.map Prod.snd)

/-- Lines 117-121: replace a `None` latitude or longitude by `0` before
writing. -/
def normalizeMeta (m : CountryMeta) : CountryMeta :=
  let m1 :=
    match m.latitude with
    | none => { m with latitude := some PyFloat.zero }
    | some _ => m
  match m1.longitude with
  | none => { m1 with longitude := some PyFloat.zero }
  | some _ => m1

/-- The country list as written to both consolidated outputs (sorted on
line 114, normalized on lines 117-121 before either write). -/
def countriesOut (st : BuildState) : List CountryMeta :=
  (sortedCountries st).map normalizeMeta

/-- Line 129: the fixed CSV header. -/
def csv_fieldnames : List String :=
  ["iso2", "iso3", "name", "capital", "region", "subregion", "latitude", "longitude"]

/-- Everything the writer stage persists: the per-country city files
(lines 104-109), the consolidated JSON list (line 124-125) and the CSV
file as header plus one record per row (lines 129-134). -/
structure Output where
  cityFiles : List (String × List CityObj)
  countriesJson : List CountryMeta
  csvHeader : List String
  csvRecords : List CountryMeta
deriving DecidableEq, Repr

/-- The writer stage (lines 104-135) applied to the final state. -/
def mkOutput (st : BuildState) : Output :=
  { cityFiles := st.cities.map (fun p => (p.1, sortCities p.2)),
    countriesJson := countriesOut st,
    csvHeader := csv_fieldnames,
    csvRecords := countriesOut st }

/-- Lines 44-137, `build_from_csv`, on the parsed rows of an existing CSV
file: `none` models a run aborted by an uncaught exception (in which case
the consolidated outputs are never written). -/
def build_from_csv (rows : List RawRow) : Option Output :=
  (runRows initState rows).map mkOutput

/-- The accepted City Records of a row list, in input order (`none` as
soon as a row raises). -/
def acceptedCities : List RawRow → Option (List CityObj)
  | [] => some []
  | r :: t =>
    if rowIso2 r = "" then acceptedCities t
    else
      match rowCity r, acceptedCities t with
      | some c, some cs => some (c :: cs)
      | _, _ => none

/-- The metadata record stored for code `c` after the first `i` rows
(`none` if absent or if the run has already aborted). -/
def metaAt (rows : List RawRow) (i : Nat) (c : String) : Option CountryMeta :=
  match runRows initState (rows.take i) with
  | some st => alistGet st.meta c
  | none => none

/-- How many rows change the already-created metadata record of code `c`
(observable value changes after creation). -/
def metaChanges (rows : List RawRow) (c : String) : Nat :=
  (List.range rows.length).countP (fun i =>
    match metaAt rows i c, metaAt rows (i + 1) c with
    | some m, some m2 => decide (m ≠ m2)
    | _, _ => false)

/-! ### Concrete sample inputs and states used by witnesses and
counterexamples -/

/-- A row passing the country gate whose latitude is present but unparsable. -/
def c1row : RawRow :=
  { iso2 := some "us", city := some "Springfield", lat := some "abc", lng := some "1.0" }

/-- A row passing the country gate whose latitude is present but unparsable. -/
def c1wrow : RawRow := { iso2 := some "jp", lat := some "xyz" }

/-- A row whose iso2 is a single space: empty after trimming, non-empty
before. -/
def c2row : RawRow :=
  { iso2 := some " ", country := some "Nowhere", city := some "Ghost Town" }

/-- A row whose iso2 is literally empty. -/
def c2wrow : RawRow := { iso2 := some "" }

/-- One code with one non-capital row followed by two primary rows. -/
def c3rows : List RawRow :=
  [{ iso2 := some "FR", country := some "France", city := some "Nice",
     capital := some "minor" },
   { iso2 := some "FR", country := some "France", city := some "Paris",
     capital := some "primary", lat := some "48.85", lng := some "2.35" },
   { iso2 := some "FR", country := some "France", city := some "Lyon",
     capital := some "primary", lat := some "45.76", lng := some "4.83" }]

/-- The loop state after the first row of `c3rows`. -/
def c3st1 : BuildState :=
  ⟨[("FR", [{ name := "Nice", country_iso2 := "FR", state := "", is_capital := false,
              latitude := PyFloat.zero, longitude := PyFloat.zero, population := none }])],
   [("FR", { iso2 := "FR", iso3 := "", name := "France", capital := "", region := "",
             subregion := "", latitude := none, longitude := none })]⟩

/-- A primary-capital row with an unparsable latitude. -/
def c4row : RawRow :=
  { iso2 := some "DE", country := some "Germany", city := some "Berlin",
    capital := some "primary", lat := some "oops", lng := some "13.4" }

/-- A primary-capital row with mixed-case capital field. -/
def c5row : RawRow :=
  { iso2 := some "fr", country := some "France", city := some "Paris",
    capital := some "Primary", lat := some "48.85", lng := some "2.35" }

/-- The loop state after processing `c5row` from the initial state. -/
def c5st : BuildState :=
  ⟨[("FR", [{ name := "Paris", country_iso2 := "FR", state := "", is_capital := true,
              latitude := ⟨4885, 2⟩, longitude := ⟨235, 2⟩, population := none }])],
   [("FR", { iso2 := "FR", iso3 := "", name := "France", capital := "Paris", region := "",
             subregion := "", latitude := some ⟨4885, 2⟩, longitude := some ⟨235, 2⟩ })]⟩

/-- The France scenario of the specification: Paris (primary) then Lyon. -/
def c7rows : List RawRow :=
  [{ iso2 := some "FR", country := some "France", city := some "Paris",
     capital := some "primary", lat := some "48.85", lng := some "2.35",
     population := some "2148000" },
   { iso2 := some "FR", country := some "France", city := some "Lyon",
     capital := some "", lat := some "45.76", lng := some "4.83",
     population := some "513000" }]

def c7paris : CityObj :=
  ⟨"Paris", "FR", "", true, ⟨4885, 2⟩, ⟨235, 2⟩, some 2148000⟩

def c7lyon : CityObj :=
  ⟨"Lyon", "FR", "", false, ⟨4576, 2⟩, ⟨483, 2⟩, some 513000⟩

def c7meta : CountryMeta :=
  ⟨"FR", "", "France", "Paris", "", "", some ⟨4885, 2⟩, some ⟨235, 2⟩⟩

/-- The loop state after processing `c7rows` from the initial state. -/
def c7st : BuildState := ⟨[("FR", [c7paris, c7lyon])], [("FR", c7meta)]⟩

/-- Two countries, no primary capitals, names out of order. -/
def c8rows : List RawRow :=
  [{ iso2 := some "DE", country := some "Germany", city := some "Munich",
     capital := some "admin" },
   { iso2 := some "AU", country := some "Australia", city := some "Sydney",
     capital := some "admin" }]

/-- The loop state after processing `c8rows` from the initial state. -/
def c8st : BuildState :=
  ⟨[("DE", [{ name := "Munich", country_iso2 := "DE", state := "", is_capital := true,
              latitude := PyFloat.zero, longitude := PyFloat.zero, population := none }]),
    ("AU", [{ name := "Sydney", country_iso2 := "AU", state := "", is_capital := true,
              latitude := PyFloat.zero, longitude := PyFloat.zero, population := none }])],
   [("DE", { iso2 := "DE", iso3 := "", name := "Germany", capital := "", region := "",
             subregion := "", latitude := none, longitude := none }),
    ("AU", { iso2 := "AU", iso3 := "", name := "Australia", capital := "", region := "",
             subregion := "", latitude := none, longitude := none })]⟩

/-- Two rows with the same code but different country name and iso3. -/
def c10rows : List RawRow :=
  [{ iso2 := some "us", iso3 := some "usa", country := some "United States",
     city := some "Austin" },
   { iso2 := some "US", iso3 := some "xxx", country := some "America",
     city := some "Boston" }]

def c10meta : CountryMeta :=
  ⟨"US", "USA", "United States", "", "", "", none, none⟩

/-- The loop state after processing `c10rows` from the initial state. -/
def c10st : BuildState :=
  ⟨[("US", [{ name := "Austin", country_iso2 := "US", state := "", is_capital := false,
              latitude := PyFloat.zero, longitude := PyFloat.zero, population := none },
            { name := "Boston", country_iso2 := "US", state := "", is_capital := false,
              latitude := PyFloat.zero, longitude := PyFloat.zero, population := none }])],
   [("US", c10meta)]⟩

/-! ### Association-list lemmas -/

theorem alistGet_append {α : Type} (l1 l2 : List (String × α)) (c : String) :
    alistGet (l1 ++ l2) c =
      match alistGet l1 c with
      | some v => some v
      | none => alistGet l2 c := by
  induction l1 with
  | nil => simp [alistGet]
  | cons p t ih =>
    cases p with
    | mk k v =>
      simp only [List.cons_append, alistGet]
      split <;> simp [ih]

theorem alistGet_append_of_some {α : Type} {l1 : List (String × α)} {c : String} {m : α}
    (l2 : List (String × α)) (h : alistGet l1 c = some m) :
    alistGet (l1 ++ l2) c = some m := by
  rw [alistGet_append, h]

theorem alistGet_modify {α : Type} (l : List (String × α)) (k c : String) (f : α → α) :
    alistGet (alistModify l k f) c =
      if k = c then (alistGet l c).map f else alistGet l c := by
  induction l with
  | nil => simp [alistGet, alistModify]
  | cons p t ih =>
    cases p with
    | mk k1 v =>
      simp only [alistModify, alistGet]
      by_cases h1 : k1 = k
      · subst h1
        by_cases h2 : k1 = c <;> simp [alistGet, h2]
      · simp only [if_neg h1, alistGet]
        by_cases h2 : k1 = c
        · subst h2
          have hk : ¬ k = k1 := fun hh => h1 hh.symm
          simp [hk]
        · simp [h2, ih]

theorem alistGet_insertIfAbsent_self (l : List (String × CountryMeta)) (k : String)
    (v : CountryMeta) :
    alistGet (insertIfAbsent l k v) k = some ((alistGet l k).getD v) := by
  unfold insertIfAbsent
  cases h : alistGet l k with
  | some m => simp [h]
  | none =>
    simp only [h, Option.isSome_none, Bool.false_eq_true, if_false, Option.getD_none]
    rw [alistGet_append, h]
    simp [alistGet]

theorem alistGet_insertIfAbsent_other {k c : String} (l : List (String × CountryMeta))
    (v : CountryMeta) (h : k ≠ c) :
    alistGet (insertIfAbsent l k v) c = alistGet l c := by
  unfold insertIfAbsent
  split
  · rfl
  · rw [alistGet_append]
    cases hc : alistGet l c with
    | some m => rfl
    | none => simp [alistGet, h]

theorem alistGet_insertIfAbsent_of_some {l : List (String × CountryMeta)} {c : String}
    {m : CountryMeta} (k : String) (v : CountryMeta) (h : alistGet l c = some m) :
    alistGet (insertIfAbsent l k v) c = some m := by
  unfold insertIfAbsent
  split
  · exact h
  · exact alistGet_append_of_some _ h

theorem groupOf_dictAppend (l : List (String × List CityObj)) (k c : String) (x : CityObj) :
    groupOf (dictAppend l k x) c = if k = c then groupOf l c ++ [x] else groupOf l c := by
  unfold dictAppend groupOf
  cases hk : alistGet l k with
  | some g =>
    simp only [hk, Option.isSome_some, if_true]
    rw [alistGet_modify]
    by_cases h : k = c
    · subst h
      simp [hk]
    · simp [h]
  | none =>
    simp only [hk, Option.isSome_none, Bool.false_eq_true, if_false]
    rw [alistGet_append]
    by_cases h : k = c
    · subst h
      simp [hk, alistGet]
    · cases hc : alistGet l c with
      | some g => simp [h]
      | none => simp [alistGet, h]

/-! ### Step lemmas for the row loop -/

theorem processRow_skip (st : BuildState) (r : RawRow) (h : rowIso2 r = "") :
    processRow st r = some st := by
  simp [processRow, h]

theorem processRow_cases {st st' : BuildState} {r : RawRow}
    (h : processRow st r = some st') :
    (rowIso2 r = "" ∧ st' = st) ∨
    (rowIso2 r ≠ "" ∧ ∃ city, rowCity r = some city ∧
      st' = ⟨dictAppend st.cities (rowIso2 r) city,
             if rowCapitalNorm r = "primary"
             then alistModify (insertIfAbsent st.meta (rowIso2 r) (metaInit r)) (rowIso2 r)
                    (primaryUpdate r)
             else insertIfAbsent st.meta (rowIso2 r) (metaInit r)⟩) := by
  by_cases h2 : rowIso2 r = ""
  · left
    refine ⟨h2, ?_⟩
    rw [processRow_skip st r h2] at h
    exact (Option.some.injEq _ _ ▸ h).symm
  · right
    refine ⟨h2, ?_⟩
    cases hc : rowCity r with
    | none => simp [processRow, h2, hc] at h
    | some city =>
      refine ⟨city, rfl, ?_⟩
      simp only [processRow, h2, hc, if_neg h2] at h
      exact (Option.some.injEq _ _ ▸ h).symm

theorem primaryUpdate_fields (r : RawRow) (m : CountryMeta) :
    (primaryUpdate r m).iso2 = m.iso2 ∧ (primaryUpdate r m).iso3 = m.iso3 ∧
    (primaryUpdate r m).name = m.name ∧ (primaryUpdate r m).region = m.region ∧
    (primaryUpdate r m).subregion = m.subregion ∧
    (primaryUpdate r m).capital = orEmpty r.city := by
  unfold primaryUpdate
  cases floatField r.lat <;> cases floatField r.lng <;> simp

theorem rowCity_fields {r : RawRow} {city : CityObj} (h : rowCity r = some city) :
    city.name = orEmpty r.city ∧ city.country_iso2 = rowIso2 r ∧
    city.state = orEmpty r.admin_name ∧ city.is_capital = is_capital r.capital ∧
    floatField r.lat = some city.latitude ∧ floatField r.lng = some city.longitude ∧
    city.population = parse_population r.population := by
  unfold rowCity at h
  cases hla : floatField r.lat <;> cases hlo : floatField r.lng <;>
    simp [hla, hlo] at h
  simp [hla, hlo, h.symm]

theorem processRow_meta_preserved {st st' : BuildState} {r : RawRow} {c : String}
    {m : CountryMeta} (h : processRow st r = some st') (hm : alistGet st.meta c = some m) :
    ∃ m', alistGet st'.meta c = some m' ∧
      m'.iso2 = m.iso2 ∧ m'.iso3 = m.iso3 ∧ m'.name = m.name ∧
      m'.region = m.region ∧ m'.subregion = m.subregion ∧
      (m' = m ∨ (rowIso2 r = c ∧ rowCapitalNorm r = "primary" ∧ m' = primaryUpdate r m)) := by
  rcases processRow_cases h with ⟨h2, rfl⟩ | ⟨h2, city, hc, rfl⟩
  · exact ⟨m, hm, rfl, rfl, rfl, rfl, rfl, Or.inl rfl⟩
  · have hins : alistGet (insertIfAbsent st.meta (rowIso2 r) (metaInit r)) c = some m :=
      alistGet_insertIfAbsent_of_some _ _ hm
    by_cases hp : rowCapitalNorm r = "primary"
    · simp only [if_pos hp]
      by_cases hkc : rowIso2 r = c
      · obtain ⟨f1, f2, f3, f4, f5, _⟩ := primaryUpdate_fields r m
        refine ⟨primaryUpdate r m, ?_, f1, f2, f3, f4, f5, Or.inr ⟨hkc, hp, rfl⟩⟩
        show alistGet (alistModify _ (rowIso2 r) (primaryUpdate r)) c = _
        rw [alistGet_modify, if_pos hkc, hins]
        rfl
      · refine ⟨m, ?_, rfl, rfl, rfl, rfl, rfl, Or.inl rfl⟩
        show alistGet (alistModify _ (rowIso2 r) (primaryUpdate r)) c = _
        rw [alistGet_modify, if_neg hkc, hins]
    · simp only [if_neg hp]
      exact ⟨m, hins, rfl, rfl, rfl, rfl, rfl, Or.inl rfl⟩

theorem processRow_meta_new {st st' : BuildState} {r : RawRow} {c : String}
    {m' : CountryMeta} (h : processRow st r = some st')
    (h0 : alistGet st.meta c = none) (hm : alistGet st'.meta c = some m') :
    rowIso2 r = c ∧ rowIso2 r ≠ "" ∧
    m'.iso2 = rowIso2 r ∧ m'.iso3 = rowIso3 r ∧ m'.name = orEmpty r.country ∧
    m'.region = "" ∧ m'.subregion = "" ∧
    (m' = metaInit r ∨ (rowCapitalNorm r = "primary" ∧ m' = primaryUpdate r (metaInit r))) := by
  rcases processRow_cases h with ⟨h2, rfl⟩ | ⟨h2, city, hc, rfl⟩
  · rw [h0] at hm
    exact absurd hm (by simp)
  · by_cases hkc : rowIso2 r = c
    · subst hkc
      have hins : alistGet (insertIfAbsent st.meta (rowIso2 r) (metaInit r)) (rowIso2 r) =
          some (metaInit r) := by
        rw [alistGet_insertIfAbsent_self, h0]
        rfl
      by_cases hp : rowCapitalNorm r = "primary"
      · have hget : alistGet
            (if rowCapitalNorm r = "primary"
             then alistModify (insertIfAbsent st.meta (rowIso2 r) (metaInit r)) (rowIso2 r)
                    (primaryUpdate r)
             else insertIfAbsent st.meta (rowIso2 r) (metaInit r)) (rowIso2 r) =
            some (primaryUpdate r (metaInit r)) := by
          rw [if_pos hp, alistGet_modify, if_pos rfl, hins]
          rfl
        have hm2 : m' = primaryUpdate r (metaInit r) := by
          have := hm
          rw [hget] at this
          exact (Option.some.injEq _ _ ▸ this).symm
        obtain ⟨f1, f2, f3, f4, f5, _⟩ := primaryUpdate_fields r (metaInit r)
        subst hm2
        exact ⟨rfl, h2, f1, f2, f3, f4, f5, Or.inr ⟨hp, rfl⟩⟩
      · have hget : alistGet
            (if rowCapitalNorm r = "primary"
             then alistModify (insertIfAbsent st.meta (rowIso2 r) (metaInit r)) (rowIso2 r)
                    (primaryUpdate r)
             else insertIfAbsent st.meta (rowIso2 r) (metaInit r)) (rowIso2 r) =
            some (metaInit r) := by
          rw [if_neg hp]
          exact hins
        have hm2 : m' = metaInit r := by
          have := hm
          rw [hget] at this
          exact (Option.some.injEq _ _ ▸ this).symm
        subst hm2
        exact ⟨rfl, h2, rfl, rfl, rfl, rfl, rfl, Or.inl rfl⟩
    · have hnone : alistGet
          (if rowCapitalNorm r = "primary"
           then alistModify (insertIfAbsent st.meta (rowIso2 r) (metaInit r)) (rowIso2 r)
                  (primaryUpdate r)
           else insertIfAbsent st.meta (rowIso2 r) (metaInit r)) c = none := by
        by_cases hp : rowCapitalNorm r = "primary"
        · rw [if_pos hp, alistGet_modify, if_neg hkc, alistGet_insertIfAbsent_other _ _ hkc, h0]
        · rw [if_neg hp, alistGet_insertIfAbsent_other _ _ hkc, h0]
      rw [hnone] at hm
      exact absurd hm (by simp)

theorem processRow_meta_isSome {st st' : BuildState} {r : RawRow} (c : String)
    (h : processRow st r = some st') :
    (alistGet st'.meta c).isSome ↔
      (alistGet st.meta c).isSome ∨ (rowIso2 r = c ∧ rowIso2 r ≠ "") := by
  constructor
  · intro hs
    cases h0 : alistGet st.meta c with
    | some m => exact Or.inl (by simp [h0])
    | none =>
      cases hm : alistGet st'.meta c with
      | none =>
        rw [hm] at hs
        simp at hs
      | some m' =>
        have hn := processRow_meta_new h h0 hm
        exact Or.inr ⟨hn.1, hn.2.1⟩
  · intro hs
    rcases hs with hs | ⟨hkc, hne⟩
    · cases h0 : alistGet st.meta c with
      | none =>
        rw [h0] at hs
        simp at hs
      | some m =>
        obtain ⟨m', hm', _⟩ := processRow_meta_preserved h h0
        simp [hm']
    · rcases processRow_cases h with ⟨h2, rfl⟩ | ⟨h2, city, hc, rfl⟩
      · exact absurd h2 hne
      · subst hkc
        show (alistGet
          (if rowCapitalNorm r = "primary"
           then alistModify (insertIfAbsent st.meta (rowIso2 r) (metaInit r)) (rowIso2 r)
                  (primaryUpdate r)
           else insertIfAbsent st.meta (rowIso2 r) (metaInit r)) (rowIso2 r)).isSome
        by_cases hp : rowCapitalNorm r = "primary"
        · rw [if_pos hp, alistGet_modify, if_pos rfl, alistGet_insertIfAbsent_self]
          simp
        · rw [if_neg hp, alistGet_insertIfAbsent_self]
          simp

/-! ### Loop-level lemmas -/

theorem runRows_append (st : BuildState) (l1 l2 : List RawRow) :
    runRows st (l1 ++ l2) =
      match runRows st l1 with
      | some st1 => runRows st1 l2
      | none => none := by
  induction l1 generalizing st with
  | nil => simp [runRows]
  | cons r t ih =>
    simp only [List.cons_append, runRows]
    cases processRow st r with
    | none => rfl
    | some st1 => exact ih st1

theorem runRows_meta_isSome {rows : List RawRow} {st st' : BuildState}
    (h : runRows st rows = some st') (c : String) :
    (alistGet st'.meta c).isSome ↔
      (alistGet st.meta c).isSome ∨ ∃ r ∈ rows, rowIso2 r = c ∧ c ≠ "" := by
  induction rows generalizing st with
  | nil =>
    have hst : st' = st := by
      simpa [runRows] using h.symm
    subst hst
    simp
  | cons r t ih =>
    simp only [runRows] at h
    cases hp : processRow st r with
    | none => rw [hp] at h; exact absurd h (by simp)
    | some st1 =>
      rw [hp] at h
      rw [ih h, processRow_meta_isSome c hp]
      constructor
      · rintro ((hs | ⟨hkc, hne⟩) | ⟨r2, hr2, hc2⟩)
        · exact Or.inl hs
        · exact Or.inr ⟨r, List.mem_cons_self r t, hkc, fun hce => hne (hce ▸ hkc ▸ rfl)⟩
        · exact Or.inr ⟨r2, List.mem_cons_of_mem r hr2, hc2⟩
      · rintro (hs | ⟨r2, hr2, hc2, hcne⟩)
        · exact Or.inl (Or.inl hs)
        · rcases List.mem_cons.mp hr2 with hr2 | hr2
          · subst hr2
            exact Or.inl (Or.inr ⟨hc2, hc2 ▸ hcne⟩)
          · exact Or.inr ⟨r2, hr2, hc2, hcne⟩

theorem runRows_meta_firstRow {rows : List RawRow} {st st' : BuildState} {c : String}
    {m' : CountryMeta} (h : runRows st rows = some st')
    (hm : alistGet st'.meta c = some m') :
    (∃ m, alistGet st.meta c = some m ∧ m'.iso2 = m.iso2 ∧ m'.iso3 = m.iso3 ∧
       m'.name = m.name ∧ m'.region = m.region ∧ m'.subregion = m.subregion) ∨
    (alistGet st.meta c = none ∧
       ∃ r, rows.find? (fun x => rowIso2 x == c) = some r ∧
         m'.iso2 = rowIso2 r ∧ m'.iso3 = rowIso3 r ∧ m'.name = orEmpty r.country ∧
         m'.region = "" ∧ m'.subregion = "") := by
  induction rows generalizing st with
  | nil =>
    have hst : st' = st := by
      simpa [runRows] using h.symm
    subst hst
    exact Or.inl ⟨m', hm, rfl, rfl, rfl, rfl, rfl⟩
  | cons r t ih =>
    simp only [runRows] at h
    cases hp : processRow st r with
    | none => rw [hp] at h; exact absurd h (by simp)
    | some st1 =>
      rw [hp] at h
      rcases ih h with ⟨m1, hm1, g1, g2, g3, g4, g5⟩ | ⟨h1none, r2, hfind, g1, g2, g3, g4, g5⟩
      · cases h0 : alistGet st.meta c with
        | some m0 =>
          obtain ⟨m1b, hm1b, p1, p2, p3, p4, p5, _⟩ := processRow_meta_preserved hp h0
          have hmm : m1 = m1b := by
            rw [hm1] at hm1b
            exact Option.some_inj.mp hm1b
          subst hmm
          exact Or.inl ⟨m0, rfl, g1.trans p1, g2.trans p2, g3.trans p3, g4.trans p4,
            g5.trans p5⟩
        | none =>
          obtain ⟨q0, q1, q2, q3, q4, q5, q6, _⟩ := processRow_meta_new hp h0 hm1
          refine Or.inr ⟨rfl, r, ?_, g1.trans q2, g2.trans q3, g3.trans q4, g4.trans q5,
            g5.trans q6⟩
          simp only [List.find?]
          rw [show (rowIso2 r == c) = true from beq_iff_eq.mpr q0]
      · have h0 : alistGet st.meta c = none := by
          cases h0 : alistGet st.meta c with
          | none => rfl
          | some m0 =>
            obtain ⟨m1b, hm1b, _⟩ := processRow_meta_preserved hp h0
            rw [h1none] at hm1b
            exact absurd hm1b (by simp)
        have hcne : c ≠ "" := by
          intro hce
          subst hce
          have h2 := (runRows_meta_isSome h "").mp (by rw [hm]; rfl)
          rcases h2 with h2 | ⟨r3, _, _, habs⟩
          · rw [h1none] at h2
            simp at h2
          · exact habs rfl
        have hrne : rowIso2 r ≠ c := by
          intro hkc
          have h1some := (processRow_meta_isSome c hp).mpr (Or.inr ⟨hkc, hkc ▸ hcne⟩)
          rw [h1none] at h1some
          simp at h1some
        refine Or.inr ⟨h0, r2, ?_, g1, g2, g3, g4, g5⟩
        simp only [List.find?]
        rw [show (rowIso2 r == c) = false from beq_eq_false_iff_ne.mpr hrne]
        exact hfind

theorem runRows_meta_capital {rows : List RawRow} {st st' : BuildState} {c : String}
    {m' : CountryMeta} (h : runRows st rows = some st')
    (hm : alistGet st'.meta c = some m') :
    (∃ m, alistGet st.meta c = some m ∧ m'.capital = m.capital ∧
       m'.latitude = m.latitude ∧ m'.longitude = m.longitude) ∨
    (m'.capital = "" ∧ m'.latitude = none ∧ m'.longitude = none) ∨
    (∃ r ∈ rows, rowIso2 r = c ∧ rowCapitalNorm r = "primary") := by
  induction rows generalizing st with
  | nil =>
    have hst : st' = st := by
      simpa [runRows] using h.symm
    subst hst
    exact Or.inl ⟨m', hm, rfl, rfl, rfl⟩
  | cons r t ih =>
    simp only [runRows] at h
    cases hp : processRow st r with
    | none => rw [hp] at h; exact absurd h (by simp)
    | some st1 =>
      rw [hp] at h
      rcases ih h with ⟨m1, hm1, g1, g2, g3⟩ | hmid | ⟨r2, hr2, hc2, hp2⟩
      · cases h0 : alistGet st.meta c with
        | some m0 =>
          obtain ⟨m1b, hm1b, _, _, _, _, _, hlast⟩ := processRow_meta_preserved hp h0
          have hmm : m1 = m1b := by
            rw [hm1] at hm1b
            exact Option.some_inj.mp hm1b
          subst hmm
          rcases hlast with hsame | ⟨hkc, hprim, hupd⟩
          · subst hsame
            exact Or.inl ⟨m1, rfl, g1, g2, g3⟩
          · exact Or.inr (Or.inr ⟨r, List.mem_cons_self r t, hkc, hprim⟩)
        | none =>
          obtain ⟨q0, _, _, _, _, _, _, hlast⟩ := processRow_meta_new hp h0 hm1
          rcases hlast with hinit | ⟨hprim, _⟩
          · subst hinit
            exact Or.inr (Or.inl ⟨g1, g2, g3⟩)
          · exact Or.inr (Or.inr ⟨r, List.mem_cons_self r t, q0, hprim⟩)
      · exact Or.inr (Or.inl hmid)
      · exact Or.inr (Or.inr ⟨r2, List.mem_cons_of_mem r hr2, hc2, hp2⟩)

/-! ### The name order used by the writer's sorts -/

theorem charListLe_refl (l : List Char) : charListLe l l = true := by
  induction l with
  | nil => rfl
  | cons a t ih => simp [charListLe, ih]

theorem charListLe_total (x y : List Char) :
    charListLe x y = true ∨ charListLe y x = true := by
  induction x generalizing y with
  | nil => exact Or.inl rfl
  | cons a as ih =>
    cases y with
    | nil => exact Or.inr rfl
    | cons b bs =>
      by_cases hab : a.toNat = b.toNat
      · rcases ih bs with h | h
        · exact Or.inl (by simp [charListLe, hab, h])
        · exact Or.inr (by simp [charListLe, hab.symm, h])
      · rcases Nat.lt_or_ge a.toNat b.toNat with hlt | hge
        · exact Or.inl (by simp [charListLe, hab, hlt])
        · have hba : ¬ b.toNat = a.toNat := fun hh => hab hh.symm
          have hlt : b.toNat < a.toNat := Nat.lt_of_le_of_ne hge hba
          exact Or.inr (by simp [charListLe, hba, hlt])

theorem charListLe_trans {x y z : List Char} (h1 : charListLe x y = true)
    (h2 : charListLe y z = true) : charListLe x z = true := by
  induction x generalizing y z with
  | nil => rfl
  | cons a as ih =>
    cases y with
    | nil => simp [charListLe] at h1
    | cons b bs =>
      cases z with
      | nil => simp [charListLe] at h2
      | cons c2 cs =>
        simp only [charListLe] at h1 h2 ⊢
        by_cases hab : a.toNat = b.toNat
        · rw [if_pos hab] at h1
          by_cases hbc : b.toNat = c2.toNat
          · rw [if_pos (hab.trans hbc)]
            rw [if_pos hbc] at h2
            exact ih h1 h2
          · rw [if_neg hbc] at h2
            have hbc2 : b.toNat < c2.toNat := by simpa using h2
            have hac : ¬ a.toNat = c2.toNat := by omega
            rw [if_neg hac]
            simpa using (by omega : a.toNat < c2.toNat)
        · rw [if_neg hab] at h1
          have hab2 : a.toNat < b.toNat := by simpa using h1
          by_cases hbc : b.toNat = c2.toNat
          · have hac : ¬ a.toNat = c2.toNat := by omega
            rw [if_neg hac]
            simpa using (by omega : a.toNat < c2.toNat)
          · rw [if_neg hbc] at h2
            have hbc2 : b.toNat < c2.toNat := by simpa using h2
            have hac : ¬ a.toNat = c2.toNat := by omega
            rw [if_neg hac]
            simpa using (by omega : a.toNat < c2.toNat)

theorem strLe_total (a b : String) : strLe a b = true ∨ strLe b a = true :=
  charListLe_total a.data b.data

theorem strLe_trans {a b c : String} (h1 : strLe a b = true) (h2 : strLe b c = true) :
    strLe a c = true :=
  charListLe_trans h1 h2

instance : IsTotal CityObj cityNameLe := ⟨fun a b => strLe_total a.name b.name⟩

instance : IsTrans CityObj cityNameLe := ⟨fun _ _ _ => strLe_trans⟩

instance : IsTotal CountryMeta metaNameLe := ⟨fun a b => strLe_total a.name b.name⟩

instance : IsTrans CountryMeta metaNameLe := ⟨fun _ _ _ => strLe_trans⟩

theorem cityNameLe_of_eq {a b : CityObj} (h : a.name = b.name) : cityNameLe a b := by
  unfold cityNameLe strLe
  rw [h]
  exact charListLe_refl _

/-! ### Stability of the city sort -/

theorem filter_orderedInsert (x : CityObj) (l : List CityObj) (n : String) :
    (List.orderedInsert cityNameLe x l).filter (fun y => y.name == n) =
      (if x.name == n then [x] else []) ++ l.filter (fun y => y.name == n) := by
  induction l with
  | nil =>
    simp only [List.orderedInsert, List.filter, List.append_nil]
    by_cases h : x.name == n <;> simp [h]
  | cons b bs ih =>
    by_cases hr : cityNameLe x b
    · rw [List.orderedInsert_of_le _ _ hr, List.filter_cons]
      by_cases h : x.name == n <;> simp [h]
    · have hne : x.name ≠ b.name := fun he => hr (cityNameLe_of_eq he)
      have hins : List.orderedInsert cityNameLe x (b :: bs) =
          b :: List.orderedInsert cityNameLe x bs := by
        simp [List.orderedInsert, hr]
      rw [hins, List.filter_cons, List.filter_cons]
      by_cases hbn : (b.name == n) = true
      · have hxn : ¬ ((x.name == n) = true) := by
          intro hxn
          exact hne ((beq_iff_eq.mp hxn).trans (beq_iff_eq.mp hbn).symm)
        rw [if_pos hbn, if_neg hxn, ih]
        simp [hxn, beq_iff_eq.mp hbn]
      · rw [if_neg hbn, ih, if_neg hbn]

theorem filter_insertionSort (l : List CityObj) (n : String) :
    (List.insertionSort cityNameLe l).filter (fun y => y.name == n) =
      l.filter (fun y => y.name == n) := by
  induction l with
  | nil => rfl
  | cons a t ih =>
    show (List.orderedInsert cityNameLe a (List.insertionSort cityNameLe t)).filter _ = _
    rw [filter_orderedInsert, ih, List.filter_cons]
    by_cases h : (a.name == n) = true <;> simp [h]

/-! ### The city groups produced by the loop -/

theorem rowCity_iso2 {r : RawRow} {city : CityObj} (h : rowCity r = some city) :
    city.country_iso2 = rowIso2 r := (rowCity_fields h).2.1

theorem runRows_groupOf {rows : List RawRow} {st st' : BuildState}
    (h : runRows st rows = some st') :
    ∃ cs, acceptedCities rows = some cs ∧
      ∀ c, groupOf st'.cities c = groupOf st.cities c ++
        cs.filter (fun x => x.country_iso2 == c) := by
  induction rows generalizing st with
  | nil =>
    have hst : st' = st := by simpa [runRows] using h.symm
    subst hst
    exact ⟨[], rfl, fun c => by simp [List.filter]⟩
  | cons r t ih =>
    simp only [runRows] at h
    cases hp : processRow st r with
    | none => rw [hp] at h; exact absurd h (by simp)
    | some st1 =>
      rw [hp] at h
      obtain ⟨cs, hcs, hg⟩ := ih h
      rcases processRow_cases hp with ⟨h2, rfl⟩ | ⟨h2, city, hc, hstruct⟩
      · exact ⟨cs, by simpa [acceptedCities, h2] using hcs, hg⟩
      · subst hstruct
        refine ⟨city :: cs, ?_, ?_⟩
        · simp [acceptedCities, h2, hc, hcs]
        · intro c
          rw [hg c]
          show groupOf (dictAppend st.cities (rowIso2 r) city) c ++ _ = _
          rw [groupOf_dictAppend, List.filter_cons]
          have hcity : city.country_iso2 = rowIso2 r := rowCity_iso2 hc
          by_cases hkc : rowIso2 r = c
          · rw [if_pos hkc]
            have hb : (city.country_iso2 == c) = true := beq_iff_eq.mpr (hcity.trans hkc)
            rw [if_pos hb]
            simp
          · rw [if_neg hkc]
            have hb : ¬ ((city.country_iso2 == c) = true) := by
              rw [beq_iff_eq, hcity]
              exact hkc
            rw [if_neg hb]

/-! ### Claims -/

theorem pyUpper_eq_empty {s : String} : pyUpper s = "" ↔ s = "" := by
  constructor
  · intro h
    have hd : (s.data.map Char.toUpper) = [] := by
      have h2 := congrArg String.data h
      simpa [pyUpper] using h2
    have hs : s.data = [] := List.map_eq_nil_iff.mp hd
    cases s with
    | mk d =>
      simp only at hs
      rw [hs]
  · intro h
    rw [h]
    rfl

/-- C1 counterexample.  The claim asserts that a row passing the country-code
gate whose latitude field is present but unparsable still produces its City
Record (with latitude 0.0) and never aborts the run.  On `c1row` (code "US",
latitude "abc") the run aborts with no output at all. -/
theorem C1_counterexample :
    rowIso2 c1row = "US" ∧ c1row.lat = some "abc" ∧ pyParseFloat "abc" = none ∧
    build_from_csv [c1row] = none := by
  decide

/-- C1 (amended): at the city level an absent or empty latitude/longitude
field defaults to `0.0` in the produced City Record, but a coordinate that is
present, non-empty and unparsable raises an uncaught `ValueError` during City
Record construction, aborting the run. -/
theorem C1_city_coordinate_default_or_abort (st : BuildState) (r : RawRow) :
    (∀ city, rowCity r = some city →
       ((r.lat = none ∨ r.lat = some "") → city.latitude = PyFloat.zero) ∧
       ((r.lng = none ∨ r.lng = some "") → city.longitude = PyFloat.zero)) ∧
    (rowIso2 r ≠ "" → ∀ s, (r.lat = some s ∨ r.lng = some s) → s ≠ "" →
       pyParseFloat s = none → processRow st r = none) := by
  constructor
  · intro city hc
    obtain ⟨_, _, _, _, hla, hlo, _⟩ := rowCity_fields hc
    constructor
    · rintro (h | h) <;> rw [h] at hla
      · exact (Option.some_inj.mp hla).symm
      · simp only [floatField, if_pos rfl] at hla
        exact (Option.some_inj.mp hla).symm
    · rintro (h | h) <;> rw [h] at hlo
      · exact (Option.some_inj.mp hlo).symm
      · simp only [floatField, if_pos rfl] at hlo
        exact (Option.some_inj.mp hlo).symm
  · intro hne s hs hsne hparse
    have hff : floatField (some s) = none := by
      simp [floatField, hsne, hparse]
    have hnone : rowCity r = none := by
      unfold rowCity
      rcases hs with hs | hs
      · rw [hs, hff]
      · rw [hs, hff]
        cases floatField r.lat <;> rfl
    simp [processRow, hne, hnone]

/-- C1 witness: a row with code "JP" and present unparsable latitude "xyz"
aborts the loop. -/
theorem C1_witness : processRow initState c1wrow = none :=
  (C1_city_coordinate_default_or_abort initState c1wrow).2 (by decide) "xyz"
    (Or.inl rfl) (by decide) (by decide)

/-- C2 counterexample.  The claim asserts that a row whose iso2 is empty
after trimming is discarded entirely.  `c2row` has iso2 `" "` (whitespace
only, so empty after trimming) yet it is accepted: it produces a City Record
and a Country Metadata Record under the country code `" "`. -/
theorem C2_counterexample :
    pyStrip " " = "" ∧
    (runRows initState [c2row]).map (fun st => (groupOf st.cities " ").length) = some 1 ∧
    (runRows initState [c2row]).map (fun st => (alistGet st.meta " ").isSome) = some true := by
  decide

/-- C2 (amended): a row is discarded (no City Record, no metadata
contribution, loop state unchanged) exactly when its iso2 field is absent or
literally empty — no trimming is applied, so a whitespace-only iso2 is
accepted — and every accepted row contributes its City Record under the
upper-cased iso2 field. -/
theorem C2_gate_no_trim (st : BuildState) (r : RawRow) :
    ((r.iso2 = none ∨ r.iso2 = some "") ↔ processRow st r = some st) ∧
    (∀ st', processRow st r = some st' → rowIso2 r ≠ "" →
       ∃ city, rowCity r = some city ∧ city.country_iso2 = pyUpper (orEmpty r.iso2) ∧
         groupOf st'.cities (pyUpper (orEmpty r.iso2)) =
           groupOf st.cities (pyUpper (orEmpty r.iso2)) ++ [city]) := by
  constructor
  · constructor
    · intro hi
      apply processRow_skip
      unfold rowIso2
      rcases hi with hi | hi <;> rw [hi] <;> rfl
    · intro hsome
      by_contra hcon
      have hne : rowIso2 r ≠ "" := by
        unfold rowIso2
        intro hu
        rcases hr : r.iso2 with _ | sv
        · exact hcon (Or.inl hr)
        · rw [hr] at hu
          have : sv = "" := pyUpper_eq_empty.mp hu
          exact hcon (Or.inr (by rw [hr, this]))
      rcases processRow_cases hsome with ⟨h2, _⟩ | ⟨h2, city, hc, hstruct⟩
      · exact hne h2
      · have hcit : st.cities = dictAppend st.cities (rowIso2 r) city :=
          congrArg BuildState.cities hstruct
        have hlen := congrArg (fun l => (groupOf l (rowIso2 r)).length) hcit
        simp [groupOf_dictAppend] at hlen
  · intro st' hsome hne
    rcases processRow_cases hsome with ⟨h2, _⟩ | ⟨h2, city, hc, hstruct⟩
    · exact absurd h2 hne
    · refine ⟨city, hc, rowCity_iso2 hc, ?_⟩
      subst hstruct
      show groupOf (dictAppend st.cities (rowIso2 r) city) (rowIso2 r) = _
      rw [groupOf_dictAppend, if_pos rfl]
      rfl

/-- C2 witness: a row with literally empty iso2 is skipped, leaving the
state unchanged. -/
theorem C2_witness : processRow initState c2wrow = some initState :=
  ((C2_gate_no_trim initState c2wrow).1).mp (Or.inr rfl)

/-- C4: the claimed behaviour can never be observed.  On a country whose
primary-capital row has an unparsable latitude, the same
`float(row.get("lat") or 0)` expression already raises an uncaught
`ValueError` during City Record construction (line 68), before the metadata
update of lines 88-95 is reached, so the run aborts with no written output;
the `except ValueError` branch that would install the null sentinel is
unreachable. -/
theorem C4_code_bug_eval :
    rowCapitalNorm c4row = "primary" ∧ c4row.lat = some "oops" ∧
    pyParseFloat "oops" = none ∧ build_from_csv [c4row] = none := by
  decide

/-- C6: population is parsed as an integer through an intermediate
floating-point conversion (so "1234.0" gives 1234), and an absent, empty or
unparsable population gives the `none` sentinel — never 0; the City Record
carries exactly `parse_population` of the field. -/
theorem C6_population_parse :
    (∀ r city, rowCity r = some city → city.population = parse_population r.population) ∧
    parse_population (some "1234.0") = some 1234 ∧
    parse_population none = none ∧
    parse_population (some "") = none ∧
    (∀ s, pyParseFloat s = none → parse_population (some s) = none) := by
  refine ⟨?_, by decide, rfl, by decide, ?_⟩
  · intro r city hc
    exact (rowCity_fields hc).2.2.2.2.2.2
  · intro s hp
    by_cases hs : s = ""
    · subst hs
      rfl
    · simp [parse_population, hs, hp]

/-- C6 witness: an unparsable population string gives the sentinel. -/
theorem C6_witness : parse_population (some "12x") = none :=
  C6_population_parse.2.2.2.2 "12x" (by decide)

/-- C9: the pipeline is deterministic — the embedded run is a pure function
of the parsed input rows, so identical inputs give identical outputs
(per-country city files and both consolidated country files alike). -/
theorem C9_deterministic (rows1 rows2 : List RawRow) (h : rows1 = rows2) :
    build_from_csv rows1 = build_from_csv rows2 := by
  rw [h]

/-- C9 witness: applying determinism to the France sample input. -/
theorem C9_witness : build_from_csv c7rows = build_from_csv c7rows :=
  C9_deterministic c7rows c7rows rfl

theorem runRows_singleton (st : BuildState) (r : RawRow) :
    runRows st [r] = processRow st r := by
  unfold runRows
  cases processRow st r <;> rfl

/-- C3 counterexample.  The claim asserts the metadata record is mutated at
most once after creation.  On `c3rows` (creation by a minor row, then two
primary rows) the record for "FR" changes twice after creation: its capital
goes from `""` to `"Paris"` to `"Lyon"`. -/
theorem C3_counterexample :
    metaChanges c3rows "FR" = 2 ∧
    (metaAt c3rows 1 "FR").map (fun m => m.capital) = some "" ∧
    (metaAt c3rows 2 "FR").map (fun m => m.capital) = some "Paris" ∧
    (metaAt c3rows 3 "FR").map (fun m => m.capital) = some "Lyon" := by
  decide

/-- C3 (amended): for every country code, the Country Metadata Record exists
after a prefix of the input exactly when the prefix contains an accepted row
bearing that code (so it is created on the first such row, capital row or
not); any live record has empty region and subregion, and still has empty
capital and null coordinates unless a primary-capital row of its code has
been seen; and the record changes from one row to the next only when that
row bears its code and is marked primary — once per primary row, not at most
once overall. -/
theorem C3_creation_and_primary_mutation (rows : List RawRow) (c : String) (i : Nat)
    (st : BuildState) (hst : runRows initState (rows.take i) = some st) :
    ((alistGet st.meta c).isSome ↔ ∃ r ∈ rows.take i, rowIso2 r = c ∧ c ≠ "") ∧
    (∀ m, alistGet st.meta c = some m →
       m.region = "" ∧ m.subregion = "" ∧
       (m.capital = "" ∧ m.latitude = none ∧ m.longitude = none ∨
        ∃ r ∈ rows.take i, rowIso2 r = c ∧ rowCapitalNorm r = "primary")) ∧
    (∀ hi : i < rows.length, ∀ st2 m m2, runRows initState (rows.take (i + 1)) = some st2 →
       alistGet st.meta c = some m → alistGet st2.meta c = some m2 → m ≠ m2 →
       rowIso2 rows[i] = c ∧ rowCapitalNorm rows[i] = "primary") := by
  refine ⟨?_, ?_, ?_⟩
  · have h1 := runRows_meta_isSome hst c
    simpa [initState, alistGet] using h1
  · intro m hm
    have hcap := runRows_meta_capital hst hm
    have hfst := runRows_meta_firstRow hst hm
    have hplain : m.region = "" ∧ m.subregion = "" := by
      rcases hfst with ⟨m0, hm0, _⟩ | ⟨_, r, _, _, _, _, g4, g5⟩
      · exact absurd hm0 (by simp [initState, alistGet])
      · exact ⟨g4, g5⟩
    refine ⟨hplain.1, hplain.2, ?_⟩
    rcases hcap with ⟨m0, hm0, _⟩ | hmid | hr
    · exact absurd hm0 (by simp [initState, alistGet])
    · exact Or.inl hmid
    · exact Or.inr hr
  · intro hi st2 m m2 hst2 hm hm2 hne
    have htake : rows.take (i + 1) = rows.take i ++ [rows[i]] := by
      rw [List.take_succ]
      simp [List.getElem?_eq_getElem hi]
    rw [htake, runRows_append, hst] at hst2
    have hp : processRow st rows[i] = some st2 := by
      rw [← runRows_singleton]
      exact hst2
    obtain ⟨m2b, hm2b, _, _, _, _, _, hlast⟩ := processRow_meta_preserved hp hm
    have hmm : m2b = m2 := by
      rw [hm2] at hm2b
      exact (Option.some_inj.mp hm2b).symm
    subst hmm
    rcases hlast with hsame | ⟨hkc, hprim, _⟩
    · exact absurd hsame.symm hne
    · exact ⟨hkc, hprim⟩

/-- C3 witness: after the first row of `c3rows` the "FR" record exists
exactly because that prefix contains an accepted "FR" row. -/
theorem C3_witness :
    (alistGet c3st1.meta "FR").isSome ↔
      ∃ r ∈ c3rows.take 1, rowIso2 r = "FR" ∧ "FR" ≠ "" :=
  (C3_creation_and_primary_mutation c3rows "FR" 1 c3st1 (by decide)).1

/-- C5: for every row the City Record capital flag is set exactly when the
capital field, trimmed and lower-cased, is `"primary"` or `"admin"`; a
trimmed case-insensitive `"primary"` (and only that) updates the country's
metadata capital, while any other row leaves all existing metadata records
untouched. -/
theorem C5_capital_classification (st st2 : BuildState) (r : RawRow)
    (h : processRow st r = some st2) :
    (is_capital r.capital =
      ((rowCapitalNorm r == "primary") || (rowCapitalNorm r == "admin"))) ∧
    (rowCapitalNorm r = "primary" → rowIso2 r ≠ "" →
       (alistGet st2.meta (rowIso2 r)).map (fun m => m.capital) =
         some (orEmpty r.city)) ∧
    (rowCapitalNorm r ≠ "primary" →
       ∀ c m, alistGet st.meta c = some m → alistGet st2.meta c = some m) := by
  refine ⟨?_, ?_, ?_⟩
  · cases hc : r.capital with
    | none =>
      simp only [rowCapitalNorm, hc, orEmpty]
      decide
    | some s =>
      by_cases hs : s = ""
      · subst hs
        simp only [rowCapitalNorm, hc, orEmpty]
        decide
      · simp only [is_capital, rowCapitalNorm, hc, orEmpty, if_neg hs]
  · intro hprim hne
    rcases processRow_cases h with ⟨h2, _⟩ | ⟨h2, city, hc, hstruct⟩
    · exact absurd h2 hne
    · subst hstruct
      show (alistGet
        (if rowCapitalNorm r = "primary"
         then alistModify (insertIfAbsent st.meta (rowIso2 r) (metaInit r)) (rowIso2 r)
                (primaryUpdate r)
         else insertIfAbsent st.meta (rowIso2 r) (metaInit r)) (rowIso2 r)).map _ = _
      rw [if_pos hprim, alistGet_modify, if_pos rfl, alistGet_insertIfAbsent_self]
      simp [(primaryUpdate_fields r
        ((alistGet st.meta (rowIso2 r)).getD (metaInit r))).2.2.2.2.2]
  · intro hprim c m hm
    rcases processRow_cases h with ⟨h2, heq⟩ | ⟨h2, city, hc, hstruct⟩
    · rw [heq]
      exact hm
    · subst hstruct
      show alistGet
        (if rowCapitalNorm r = "primary"
         then alistModify (insertIfAbsent st.meta (rowIso2 r) (metaInit r)) (rowIso2 r)
                (primaryUpdate r)
         else insertIfAbsent st.meta (rowIso2 r) (metaInit r)) c = some m
      rw [if_neg hprim]
      exact alistGet_insertIfAbsent_of_some _ _ hm

/-- C5 witness: the mixed-case row `c5row` (capital "Primary") updates the
"FR" metadata capital to "Paris", exactly like a lower-case "primary" row. -/
theorem C5_witness :
    (alistGet c5st.meta (rowIso2 c5row)).map (fun m => m.capital) =
      some (orEmpty c5row.city) :=
  (C5_capital_classification initState c5st c5row (by decide)).2.1 (by decide) (by decide)

theorem alistGet_map_sort (l : List (String × List CityObj)) (c : String) :
    alistGet (l.map (fun p => (p.1, sortCities p.2))) c =
      (alistGet l c).map sortCities := by
  induction l with
  | nil => rfl
  | cons p t ih =>
    cases p with
    | mk k g =>
      simp only [List.map, alistGet]
      by_cases hk : k = c
      · simp [hk]
      · simp [hk, ih]

/-- C7: for every country code present in the output, the per-country city
file contains exactly the City Records (with all their fields) whose country
code equals the file's code, sorted ascending by city name, and stably so:
for every name, records with that name appear in original input order. -/
theorem C7_per_country_files (rows : List RawRow) (out : Output)
    (h : build_from_csv rows = some out) (c : String) (l : List CityObj)
    (hl : alistGet out.cityFiles c = some l) :
    ∃ cs, acceptedCities rows = some cs ∧
      List.Sorted cityNameLe l ∧
      l.Perm (cs.filter (fun x => x.country_iso2 == c)) ∧
      ∀ n, l.filter (fun y => y.name == n) =
        (cs.filter (fun x => x.country_iso2 == c)).filter (fun y => y.name == n) := by
  obtain ⟨st, hst, hout⟩ : ∃ st, runRows initState rows = some st ∧ out = mkOutput st := by
    unfold build_from_csv at h
    cases hr : runRows initState rows with
    | none =>
      rw [hr] at h
      exact absurd h (by simp)
    | some st =>
      rw [hr] at h
      exact ⟨st, rfl, (Option.some_inj.mp h).symm⟩
  subst hout
  obtain ⟨cs, hcs, hg⟩ := runRows_groupOf hst
  obtain ⟨g, hgc, hlg⟩ : ∃ g, alistGet st.cities c = some g ∧ l = sortCities g := by
    have hmap : alistGet (mkOutput st).cityFiles c = (alistGet st.cities c).map sortCities :=
      alistGet_map_sort _ _
    rw [hmap] at hl
    cases hgc : alistGet st.cities c with
    | none =>
      rw [hgc] at hl
      exact absurd hl (by simp)
    | some g =>
      rw [hgc] at hl
      exact ⟨g, rfl, (Option.some_inj.mp hl).symm⟩
  have hgeq : g = cs.filter (fun x => x.country_iso2 == c) := by
    have hgg := hg c
    unfold groupOf at hgg
    rw [hgc] at hgg
    simpa [initState, alistGet] using hgg
  subst hlg
  refine ⟨cs, hcs, List.sorted_insertionSort cityNameLe g, ?_, ?_⟩
  · rw [hgeq] at *
    exact List.perm_insertionSort cityNameLe _
  · intro n
    rw [show sortCities g = List.insertionSort cityNameLe g from rfl,
      filter_insertionSort g n, hgeq]

/-- C7 witness: on the France sample the "FR" file is [Lyon, Paris], sorted
by name, a permutation of the accepted FR records, each name group in input
order. -/
theorem C7_witness :
    ∃ cs, acceptedCities c7rows = some cs ∧
      List.Sorted cityNameLe [c7lyon, c7paris] ∧
      List.Perm [c7lyon, c7paris] (cs.filter (fun x => x.country_iso2 == "FR")) ∧
      ∀ n, List.filter (fun y => y.name == n) [c7lyon, c7paris] =
        (cs.filter (fun x => x.country_iso2 == "FR")).filter (fun y => y.name == n) :=
  C7_per_country_files c7rows (mkOutput c7st) (by decide) "FR" [c7lyon, c7paris] (by decide)

theorem insertIfAbsent_mem {l : List (String × CountryMeta)} {k : String} {v : CountryMeta}
    {p : String × CountryMeta} (hp : p ∈ insertIfAbsent l k v) : p ∈ l ∨ p = (k, v) := by
  unfold insertIfAbsent at hp
  by_cases hk : (alistGet l k).isSome
  · rw [if_pos hk] at hp
    exact Or.inl hp
  · rw [if_neg hk] at hp
    rcases List.mem_append.mp hp with h1 | h1
    · exact Or.inl h1
    · exact Or.inr (List.mem_singleton.mp h1)

theorem alistModify_mem {l : List (String × CountryMeta)} {k : String}
    {f : CountryMeta → CountryMeta} {p : String × CountryMeta}
    (hp : p ∈ alistModify l k f) : p ∈ l ∨ ∃ q ∈ l, p = (q.1, f q.2) := by
  induction l with
  | nil => simp [alistModify] at hp
  | cons q t ih =>
    cases q with
    | mk k1 v =>
      simp only [alistModify] at hp
      by_cases h1 : k1 = k
      · rw [if_pos h1] at hp
        rcases List.mem_cons.mp hp with he | ht
        · exact Or.inr ⟨(k1, v), List.mem_cons_self _ _, he⟩
        · exact Or.inl (List.mem_cons_of_mem _ ht)
      · rw [if_neg h1] at hp
        rcases List.mem_cons.mp hp with he | ht
        · exact Or.inl (he ▸ List.mem_cons_self _ _)
        · rcases ih ht with h2 | ⟨q2, hq2, he2⟩
          · exact Or.inl (List.mem_cons_of_mem _ h2)
          · exact Or.inr ⟨q2, List.mem_cons_of_mem _ hq2, he2⟩

theorem runRows_meta_plain {rows : List RawRow} {st st2 : BuildState}
    (h : runRows st rows = some st2)
    (hinv : ∀ p ∈ st.meta, p.2.region = "" ∧ p.2.subregion = "") :
    ∀ p ∈ st2.meta, p.2.region = "" ∧ p.2.subregion = "" := by
  induction rows generalizing st with
  | nil =>
    have hst : st2 = st := by
      simpa [runRows] using h.symm
    subst hst
    exact hinv
  | cons r t ih =>
    simp only [runRows] at h
    cases hp : processRow st r with
    | none =>
      rw [hp] at h
      exact absurd h (by simp)
    | some st1 =>
      rw [hp] at h
      refine ih h ?_
      intro p hpm
      rcases processRow_cases hp with ⟨_, rfl⟩ | ⟨h2, city, hc, hstruct⟩
      · exact hinv p hpm
      · subst hstruct
        have hpm2 : p ∈
            (if rowCapitalNorm r = "primary"
             then alistModify (insertIfAbsent st.meta (rowIso2 r) (metaInit r)) (rowIso2 r)
                    (primaryUpdate r)
             else insertIfAbsent st.meta (rowIso2 r) (metaInit r)) := hpm
        by_cases hpr : rowCapitalNorm r = "primary"
        · rw [if_pos hpr] at hpm2
          rcases alistModify_mem hpm2 with h3 | ⟨q, hq, he⟩
          · rcases insertIfAbsent_mem h3 with h4 | h4
            · exact hinv p h4
            · rw [h4]
              exact ⟨rfl, rfl⟩
          · rcases insertIfAbsent_mem hq with h4 | h4
            · have hq2 := hinv q h4
              obtain ⟨_, _, _, f4, f5, _⟩ := primaryUpdate_fields r q.2
              rw [he]
              exact ⟨f4.trans hq2.1, f5.trans hq2.2⟩
            · obtain ⟨_, _, _, f4, f5, _⟩ := primaryUpdate_fields r q.2
              rw [he]
              constructor
              · rw [f4, h4]
                rfl
              · rw [f5, h4]
                rfl
        · rw [if_neg hpr] at hpm2
          rcases insertIfAbsent_mem hpm2 with h4 | h4
          · exact hinv p h4
          · rw [h4]
            exact ⟨rfl, rfl⟩

theorem normalizeMeta_fields (m : CountryMeta) :
    (normalizeMeta m).name = m.name ∧ (normalizeMeta m).region = m.region ∧
    (normalizeMeta m).subregion = m.subregion ∧
    (normalizeMeta m).latitude = some (m.latitude.getD PyFloat.zero) ∧
    (normalizeMeta m).longitude = some (m.longitude.getD PyFloat.zero) := by
  unfold normalizeMeta
  cases hla : m.latitude <;> cases hlo : m.longitude <;> simp [hla, hlo]

theorem sorted_countriesOut (st : BuildState) :
    List.Sorted metaNameLe (countriesOut st) := by
  have hs : List.Sorted metaNameLe (sortedCountries st) :=
    List.sorted_insertionSort metaNameLe _
  refine List.Pairwise.map normalizeMeta ?_ hs
  intro a b hab
  unfold metaNameLe at hab ⊢
  rw [(normalizeMeta_fields a).1, (normalizeMeta_fields b).1]
  exact hab

/-- C8: both consolidated country outputs carry the same record list — every
Country Metadata Record exactly once (as a permutation of the normalized
metadata values), sorted ascending by country name; null coordinate
sentinels are replaced by 0 before writing so no output record has a null
latitude or longitude; the tabular header is exactly
iso2, iso3, name, capital, region, subregion, latitude, longitude; and
region and subregion are always empty strings. -/
theorem C8_consolidated_outputs (rows : List RawRow) (out : Output)
    (h : build_from_csv rows = some out) :
    out.csvHeader = ["iso2", "iso3", "name", "capital", "region", "subregion",
      "latitude", "longitude"] ∧
    out.csvRecords = out.countriesJson ∧
    List.Sorted metaNameLe out.countriesJson ∧
    (∀ m ∈ out.countriesJson, m.latitude ≠ none ∧ m.longitude ≠ none ∧
       m.region = "" ∧ m.subregion = "") ∧
    ∃ st, runRows initState rows = some st ∧
      out.countriesJson.Perm ((st.meta.map Prod.snd).map normalizeMeta) := by
  obtain ⟨st, hst, hout⟩ : ∃ st, runRows initState rows = some st ∧ out = mkOutput st := by
    unfold build_from_csv at h
    cases hr : runRows initState rows with
    | none =>
      rw [hr] at h
      exact absurd h (by simp)
    | some st =>
      rw [hr] at h
      exact ⟨st, rfl, (Option.some_inj.mp h).symm⟩
  subst hout
  refine ⟨rfl, rfl, sorted_countriesOut st, ?_, st, hst, ?_⟩
  · intro m hm
    obtain ⟨m0, hm0, hmap⟩ := List.mem_map.mp hm
    have hm0mem : m0 ∈ st.meta.map Prod.snd :=
      (List.perm_insertionSort metaNameLe _).mem_iff.mp hm0
    obtain ⟨p, hpmem, hp2⟩ := List.mem_map.mp hm0mem
    have hplain := runRows_meta_plain hst (by intro p hp; simp [initState] at hp) p hpmem
    obtain ⟨f1, f2, f3, f4, f5⟩ := normalizeMeta_fields m0
    have hreg : m0.region = "" := by
      rw [← hp2]
      exact hplain.1
    have hsub : m0.subregion = "" := by
      rw [← hp2]
      exact hplain.2
    refine ⟨?_, ?_, ?_, ?_⟩
    · rw [← hmap, f4]
      simp
    · rw [← hmap, f5]
      simp
    · rw [← hmap, f2, hreg]
    · rw [← hmap, f3, hsub]
  · exact (List.perm_insertionSort metaNameLe _).map normalizeMeta

/-- C8 witness: on the two-country sample (no primary rows) the consolidated
header is the fixed one and the records are Australia then Germany. -/
theorem C8_witness :
    (mkOutput c8st).csvHeader = ["iso2", "iso3", "name", "capital", "region",
      "subregion", "latitude", "longitude"] ∧
    (mkOutput c8st).csvRecords = (mkOutput c8st).countriesJson :=
  ⟨(C8_consolidated_outputs c8rows (mkOutput c8st) (by decide)).1,
   (C8_consolidated_outputs c8rows (mkOutput c8st) (by decide)).2.1⟩

/-- C10: a country's metadata name and iso3 come from the first accepted row
bearing its code — iso3 upper-cased, missing values as the empty string —
and later rows with the same code never change them. -/
theorem C10_first_row_fields (rows : List RawRow) (st : BuildState) (c : String)
    (m : CountryMeta) (h : runRows initState rows = some st)
    (hm : alistGet st.meta c = some m) :
    ∃ r, rows.find? (fun x => rowIso2 x == c) = some r ∧
      m.iso2 = rowIso2 r ∧ m.iso3 = pyUpper (orEmpty r.iso3) ∧
      m.name = orEmpty r.country := by
  rcases runRows_meta_firstRow h hm with ⟨m0, hm0, _⟩ | ⟨_, r, hfind, g1, g2, g3, _, _⟩
  · exact absurd hm0 (by simp [initState, alistGet])
  · exact ⟨r, hfind, g1, g2, g3⟩

/-- C10 witness: on `c10rows` (two US rows with different names and iso3)
the stored record carries the first row's name and upper-cased iso3. -/
theorem C10_witness :
    ∃ r, c10rows.find? (fun x => rowIso2 x == "US") = some r ∧
      c10meta.iso2 = rowIso2 r ∧ c10meta.iso3 = pyUpper (orEmpty r.iso3) ∧
      c10meta.name = orEmpty r.country :=
  C10_first_row_fields c10rows c10st "US" c10meta (by decide) (by decide)
